import Mathlib

/-!
Shallow embedding of the command execution engine of `mcp-command-exec`
(the Go `executor` package: `commandExecutor` and its collaborators), together
with the caller-facing tool adapter (`RegisterCommandExecTool`).

Filesystem access (`os.Stat`), system search-path lookup (`exec.LookPath`),
symlink resolution (`filepath.EvalSymlinks`), the inherited process
environment (`os.Environ`, `os.Getenv("HOME")`) and process spawning
(`exec.Cmd.Run`) are modelled as an explicit `World` record of oracles; the
engine's own logic is translated function by function from the source.
String helpers (`strings.Fields`, `strings.Join`, `strings.HasPrefix`,
`strings.SplitN`, `filepath.Clean`, `filepath.Join`) are implemented
structurally over `List Char` so every definition evaluates by kernel
reduction.
-/

namespace CmdExec

/-- Go `unicode.IsSpace` restricted to the Latin-1 range it actually
recognizes (`strings.Fields` separators): space, tab, newline, vertical tab,
form feed, carriage return, NEL, NBSP. -/
def goIsSpace (c : Char) : Bool :=
  c = ' ' || c = '\t' || c = '\n' || c = '\u000B' || c = '\u000C' || c = '\r' ||
    c = '\u0085' || c = '\u00A0'

/-- Accumulator pass behind `goFields`: splits a character list around runs of
whitespace, `acc` holding the (reversed) current field. -/
def goFieldsAux : List Char → List Char → List String
  | [], acc => if acc.isEmpty then [] else [String.mk acc.reverse]
  | c :: cs, acc =>
    if goIsSpace c then
      if acc.isEmpty then goFieldsAux cs [] else String.mk acc.reverse :: goFieldsAux cs []
    else
      goFieldsAux cs (c :: acc)

/-- Go `strings.Fields`: split around runs of whitespace, no empty fields. -/
def goFields (s : String) : List String :=
  goFieldsAux s.data []

/-- Go `strings.Join` with separator `sep`. -/
def joinStrings (sep : String) : List String → String
  | [] => ""
  | x :: xs => xs.foldl (fun acc y => acc ++ sep ++ y) x

/-- Boolean prefix test on character lists. -/
def listStartsWith : List Char → List Char → Bool
  | [], _ => true
  | _, [] => false
  | a :: as, b :: bs => a = b && listStartsWith as bs

/-- Go `strings.HasPrefix s pre`. -/
def strStartsWith (s pre : String) : Bool :=
  listStartsWith pre.data s.data

/-- Go `filepath.IsAbs` (Unix): the path begins with a slash. -/
def isAbs (p : String) : Bool :=
  strStartsWith p "/"

/-- Split a character list at every occurrence of `sep` (empty segments
kept), the list analogue of `strings.Split`. -/
def splitCharAux (sep : Char) : List Char → List Char → List String
  | [], acc => [String.mk acc.reverse]
  | c :: cs, acc =>
    if c = sep then String.mk acc.reverse :: splitCharAux sep cs []
    else splitCharAux sep cs (c :: acc)

/-- `strings.Split s (String.singleton sep)`. -/
def splitOnChar (sep : Char) (s : String) : List String :=
  splitCharAux sep s.data []

/-- One step of the lexical `..`/component processing of Go
`path/filepath.Clean`; `acc` holds the output components in reverse. -/
def cleanStep (rooted : Bool) (acc : List String) (c : String) : List String :=
  if c = ".." then
    match acc with
    | [] => if rooted then [] else [".."]
    | p :: rest => if p = ".." then ".." :: acc else rest
  else
    c :: acc

/-- Go `path/filepath.Clean` (Unix): lexical path normalization — collapse
repeated slashes, drop `.` components, resolve `..` against preceding
components (absorbed at the root for rooted paths). -/
def goClean (path : String) : String :=
  if path = "" then "."
  else
    let rooted := isAbs path
    let comps := (splitOnChar '/' path).filter (fun c => c != "" && c != ".")
    let out := (comps.foldl (cleanStep rooted) []).reverse
    if rooted then "/" ++ joinStrings "/" out
    else if out.isEmpty then "."
    else joinStrings "/" out

/-- Go `filepath.Join a b` (Unix): join the non-empty elements with a slash
and `Clean` the result; all-empty input yields the empty string. -/
def goJoin (a b : String) : String :=
  if a = "" then
    if b = "" then "" else goClean b
  else if b = "" then goClean a
  else goClean (a ++ "/" ++ b)

/-- The slice of `os.FileInfo` the engine consults: `IsDir()` and the
permission bits of `Mode()` (`syscall.Stat_t.Mode`). -/
structure FileInfo where
  isDir : Bool
  mode : Nat
deriving Repr, DecidableEq

/-- Go `isExecutable`: any of the `0111` permission bits set. -/
def isExecutable (info : FileInfo) : Bool :=
  info.mode.land 0o111 != 0

/-- Outcome of `exec.Cmd.Run`: success (`err == nil`), an `*exec.ExitError`
carrying the child's exit code, or any other error (spawn failure). `msg` is
the Go `err.Error()` text. -/
inductive RunStatus where
  | success
  | exitError (code : Int) (msg : String)
  | otherError (msg : String)
deriving Repr, DecidableEq

/-- Captured output and status of one process run. -/
structure RunOutcome where
  stdout : String
  stderr : String
  status : RunStatus
deriving Repr, DecidableEq

/-- The ambient platform: filesystem stat, system `PATH` lookup
(`exec.LookPath`, `none` = not found), best-effort symlink resolution
(`filepath.EvalSymlinks`, `none` = resolution error), `os.Getenv("HOME")`
(`""` = unset), `os.Environ()`, and the process spawner keyed by binary,
arguments, working directory and environment. -/
structure World where
  stat : String → Option FileInfo
  lookPath : String → Option String
  evalSymlinks : String → Option String
  home : String
  environ : List String
  run : String → List String → String → List String → RunOutcome

/-- The `commandExecutor` state (Go struct fields; `cfg` is retained only for
`cfg.CommandExec.Environment`, modelled as `globalEnvironment`). -/
structure CommandExecutor where
  allowedCommands : List String
  currentWorkingDir : String
  allowedDirs : List String
  showWorkingDir : Bool
  searchPaths : List String
  pathBehavior : String
  globalEnvironment : List (String × String)
deriving Repr, DecidableEq

/-- Go `types.CommandResult`. -/
structure CommandResult where
  command : String
  workingDir : String
  stdout : String
  stderr : String
  exitCode : Int
  error : String
deriving Repr, DecidableEq

/-- Go `executor.Options`: per-call working-directory override and extra
environment variables. -/
structure Options where
  workingDir : String
  env : List (String × String)
deriving Repr, DecidableEq

/-- Result of a call that may mutate the executor: the structured result, the
post-call executor state, and the Go `error` return (`none` = `nil`). -/
structure ExecOutcome where
  result : CommandResult
  state : CommandExecutor
  err : Option String
deriving Repr, DecidableEq

/-- Go `commandExecutor.IsCommandAllowed`. -/
def IsCommandAllowed (e : CommandExecutor) (command : String) : Bool :=
  if command = "" then false
  else
    match goFields command with
    | [] => false
    | programName :: _ => e.allowedCommands.contains programName

/-- Go `commandExecutor.IsDirectoryAllowed`. -/
def IsDirectoryAllowed (e : CommandExecutor) (dir : String) : Bool :=
  if e.allowedDirs.isEmpty then true
  else e.allowedDirs.any (fun allowedDir => strStartsWith dir allowedDir)

/-- Map update with Go `map[string]string` assignment semantics: replace the
binding if the key is present, append otherwise. -/
def envInsert : List (String × String) → String → String → List (String × String)
  | [], k, v => [(k, v)]
  | (k0, v0) :: rest, k, v =>
    if k0 = k then (k0, v) :: rest else (k0, v0) :: envInsert rest k v

/-- Map lookup (first binding wins; `envInsert` keeps keys unique). -/
def envLookup : List (String × String) → String → Option String
  | [], _ => none
  | (k0, v0) :: rest, k => if k0 = k then some v0 else envLookup rest k

/-- Value of the last pair with key `k` in a raw key/value list — the value a
key ends up with after the list is folded into a map. -/
def lookupLast : List (String × String) → String → Option String
  | [], _ => none
  | (k0, v0) :: rest, k =>
    match lookupLast rest k with
    | some v => some v
    | none => if k0 = k then some v0 else none

/-- Fold a key/value list into a map, later pairs overriding earlier ones
(the Go `for k, v := range src { m[k] = v }` idiom). -/
def overlay (m : List (String × String)) (xs : List (String × String)) : List (String × String) :=
  xs.foldl (fun acc kv => envInsert acc kv.1 kv.2) m

/-- Go `strings.SplitN(entry, "=", 2)` as used on `os.Environ()` entries:
split at the first `=`; entries without `=` are dropped. -/
def splitEqAux : List Char → List Char → Option (String × String)
  | [], _ => none
  | c :: cs, acc =>
    if c = '=' then some (String.mk acc.reverse, String.mk cs)
    else splitEqAux cs (c :: acc)

/-- Parse one `KEY=VALUE` environment entry. -/
def parseEnvEntry (s : String) : Option (String × String) :=
  splitEqAux s.data []

/-- Go `os.PathListSeparator` (Unix). -/
def pathListSep : String := ":"

/-- The overlay phase of `commandExecutor.buildEnvironment`: inherited
process environment, then the configured global environment, then the
per-call variables — later overlays win on key collision. -/
def overlayStep (e : CommandExecutor) (inherited : List String)
    (additionalEnv : List (String × String)) : List (String × String) :=
  overlay (overlay (overlay [] (inherited.filterMap parseEnvEntry)) e.globalEnvironment)
    additionalEnv

/-- Go `commandExecutor.buildEnvironment`, as the final key→value mapping:
the overlay phase followed by the `PATH` rewrite controlled by `searchPaths`
and `pathBehavior`. -/
def buildEnvMap (e : CommandExecutor) (inherited : List String)
    (additionalEnv : List (String × String)) : List (String × String) :=
  let m := overlayStep e inherited additionalEnv
  let path := (envLookup m "PATH").getD ""
  if e.searchPaths.isEmpty then m
  else
    let joined := joinStrings pathListSep e.searchPaths
    let newPath :=
      if e.pathBehavior = "prepend" then joined ++ pathListSep ++ path
      else if e.pathBehavior = "append" then path ++ pathListSep ++ joined
      else if e.pathBehavior = "replace" then joined
      else joined ++ pathListSep ++ path
    envInsert m "PATH" newPath

/-- The `KEY=VALUE` list handed to the child process (Go iterates its map in
unspecified order; the map's own order stands in for it). -/
def buildEnvironment (e : CommandExecutor) (w : World)
    (additionalEnv : List (String × String)) : List String :=
  (buildEnvMap e w.environ additionalEnv).map (fun kv => kv.1 ++ "=" ++ kv.2)

/-- The loop of `resolveBinaryPath` over the configured search paths: join
each directory with the program name, stat it, and return the first joined
path that exists, is not a directory, and is executable. -/
def searchInPaths (w : World) (cmdName : String) : List String → Option String
  | [] => none
  | dir :: rest =>
    let path := goJoin dir cmdName
    match w.stat path with
    | some info =>
      if !info.isDir && isExecutable info then some path
      else searchInPaths w cmdName rest
    | none => searchInPaths w cmdName rest

/-- Whether a stat of `path` sees an executable non-directory — the success
condition of one `searchInPaths` probe. -/
def execOK (w : World) (path : String) : Bool :=
  match w.stat path with
  | some info => !info.isDir && isExecutable info
  | none => false

/-- Go `commandExecutor.resolveBinaryPath`. -/
def resolveBinaryPath (e : CommandExecutor) (w : World) (command : String) :
    Except String String :=
  match goFields command with
  | [] => Except.error "empty command"
  | cmdName :: _ =>
    if isAbs cmdName then
      match w.stat cmdName with
      | none => Except.error ("command not found: " ++ cmdName)
      | some info =>
        if info.isDir || !isExecutable info then
          Except.error ("not executable: " ++ cmdName)
        else Except.ok cmdName
    else
      match searchInPaths w cmdName e.searchPaths with
      | some path => Except.ok path
      | none =>
        if e.pathBehavior != "replace" then
          match w.lookPath cmdName with
          | some path => Except.ok path
          | none => Except.error ("command not found: " ++ cmdName)
        else Except.error ("command not found: " ++ cmdName)

/-- Go `commandExecutor.executeCommand`: resolve the binary, spawn it with
the remaining tokens in `workingDir` under the built environment, and convert
the run outcome into a structured result plus error value. -/
def executeCommand (e : CommandExecutor) (w : World) (command workingDir : String)
    (env : List (String × String)) : CommandResult × Option String :=
  match goFields command with
  | [] =>
    ({ command := command, workingDir := workingDir, stdout := "", stderr := "",
       exitCode := 1, error := "empty command" }, some "empty command")
  | _ :: rest =>
    match resolveBinaryPath e w command with
    | Except.error msg =>
      ({ command := command, workingDir := workingDir, stdout := "", stderr := "",
         exitCode := 1, error := msg }, some msg)
    | Except.ok binaryPath =>
      let outcome := w.run binaryPath rest workingDir (buildEnvironment e w env)
      match outcome.status with
      | RunStatus.success =>
        ({ command := command, workingDir := workingDir, stdout := outcome.stdout,
           stderr := outcome.stderr, exitCode := 0, error := "" }, none)
      | RunStatus.exitError code msg =>
        ({ command := command, workingDir := workingDir, stdout := outcome.stdout,
           stderr := outcome.stderr, exitCode := code, error := msg }, some msg)
      | RunStatus.otherError msg =>
        ({ command := command, workingDir := workingDir, stdout := outcome.stdout,
           stderr := outcome.stderr, exitCode := 1, error := msg }, some msg)

/-- Go `commandExecutor.executeInDirectory`: validate the override directory
(existence, then Directory Guard), reject `cd`, answer `pwd` synthetically,
and otherwise run the command with the override as working directory. Never
touches executor state. -/
def executeInDirectory (e : CommandExecutor) (w : World) (command workingDir : String)
    (env : List (String × String)) : CommandResult × Option String :=
  let dirOK :=
    match w.stat workingDir with
    | some st => st.isDir
    | none => false
  if !dirOK then
    ({ command := command, workingDir := e.currentWorkingDir, stdout := "", stderr := "",
       exitCode := 1, error := "Directory does not exist: " ++ workingDir },
     some ("Directory does not exist: " ++ workingDir))
  else if !IsDirectoryAllowed e workingDir then
    ({ command := command, workingDir := e.currentWorkingDir, stdout := "", stderr := "",
       exitCode := 1, error := "Access to directory not allowed: " ++ workingDir },
     some ("Access to directory not allowed: " ++ workingDir))
  else
    match goFields command with
    | "cd" :: _ =>
      ({ command := command, workingDir := workingDir, stdout := "", stderr := "",
         exitCode := 1,
         error := "cd command is not supported when using a temporary working directory" },
       some "cd command is not supported in executeInDirectory")
    | "pwd" :: _ =>
      ({ command := "pwd", workingDir := workingDir, stdout := workingDir, stderr := "",
         exitCode := 0, error := "" }, none)
    | _ => executeCommand e w command workingDir env

/-- Go `commandExecutor.handleChangeDirectory`: the ambient `cd`
pseudo-command. No argument moves to `$HOME` (error if unset); an argument is
resolved against `currentWorkingDir` when relative, symlink-resolved
best-effort, then checked for existence and against the Directory Guard
before the mutation is committed. `cdResolvedDir` is the resolution step
(Go `filepath.IsAbs` / `filepath.Join` with the current directory /
best-effort `filepath.EvalSymlinks`). -/
def cdResolvedDir (e : CommandExecutor) (w : World) (targetDir : String) : String :=
  let newDir0 := if isAbs targetDir then targetDir else goJoin e.currentWorkingDir targetDir
  match w.evalSymlinks newDir0 with
  | some d => d
  | none => newDir0

def handleChangeDirectory (e : CommandExecutor) (w : World) (parts : List String) :
    ExecOutcome :=
  match parts with
  | _ :: targetDir :: _ =>
    let newDir := cdResolvedDir e w targetDir
    let dirOK :=
      match w.stat newDir with
      | some st => st.isDir
      | none => false
    if !dirOK then
      { result := { command := joinStrings " " parts, workingDir := e.currentWorkingDir,
                    stdout := "", stderr := "", exitCode := 1,
                    error := "Directory does not exist: " ++ newDir },
        state := e, err := some ("Directory does not exist: " ++ newDir) }
    else if !IsDirectoryAllowed e newDir then
      { result := { command := joinStrings " " parts, workingDir := e.currentWorkingDir,
                    stdout := "", stderr := "", exitCode := 1,
                    error := "Access to directory not allowed: " ++ newDir },
        state := e, err := some ("Access to directory not allowed: " ++ newDir) }
    else
      { result := { command := joinStrings " " parts, workingDir := newDir,
                    stdout := "Changed directory to " ++ newDir, stderr := "",
                    exitCode := 0, error := "" },
        state := { e with currentWorkingDir := newDir }, err := none }
  | _ =>
    if w.home != "" then
      { result := { command := joinStrings " " parts, workingDir := w.home,
                    stdout := "Changed directory to " ++ w.home, stderr := "",
                    exitCode := 0, error := "" },
        state := { e with currentWorkingDir := w.home }, err := none }
    else
      { result := { command := joinStrings " " parts, workingDir := e.currentWorkingDir,
                    stdout := "", stderr := "", exitCode := 1,
                    error := "HOME environment variable not set" },
        state := e, err := some "HOME environment variable not set" }

/-- Go `commandExecutor.handlePrintWorkingDirectory`: synthetic `pwd`. -/
def handlePrintWorkingDirectory (e : CommandExecutor) : CommandResult :=
  { command := "pwd", workingDir := e.currentWorkingDir, stdout := e.currentWorkingDir,
    stderr := "", exitCode := 0, error := "" }

/-- Go `isChangeDirectoryCommand`. -/
def isChangeDirectoryCommand (command : String) : Bool :=
  match goFields command with
  | t :: _ => t = "cd"
  | [] => false

/-- Go `isPrintWorkingDirectoryCommand`. -/
def isPrintWorkingDirectoryCommand (command : String) : Bool :=
  match goFields command with
  | t :: _ => t = "pwd"
  | [] => false

/-- Go `commandExecutor.Execute`: tokenize, dispatch to the scoped path when
an override directory is supplied, otherwise special-case the `cd`/`pwd`
pseudo-commands, else run the command in the ambient directory. -/
def Execute (e : CommandExecutor) (w : World) (command : String) (options : Options) :
    ExecOutcome :=
  match goFields command with
  | [] =>
    { result := { command := command, workingDir := e.currentWorkingDir, stdout := "",
                  stderr := "", exitCode := 1, error := "empty command" },
      state := e, err := some "empty command" }
  | parts =>
    if options.workingDir != "" then
      { result := (executeInDirectory e w command options.workingDir options.env).1,
        state := e,
        err := (executeInDirectory e w command options.workingDir options.env).2 }
    else if isChangeDirectoryCommand command then
      handleChangeDirectory e w parts
    else if isPrintWorkingDirectoryCommand command then
      { result := handlePrintWorkingDirectory e, state := e, err := none }
    else
      { result := (executeCommand e w command e.currentWorkingDir options.env).1,
        state := e,
        err := (executeCommand e w command e.currentWorkingDir options.env).2 }

/-- Response of the tool adapter: an error response (`NewToolResultError`) or
a structured result (standing for its JSON text, a presentation concern). -/
inductive ToolResult where
  | err (msg : String)
  | ok (r : CommandResult)
deriving Repr, DecidableEq

/-- The tool handler registered by `RegisterCommandExecTool` (mcp package):
reject the empty command, enforce the allowlist via `IsCommandAllowed`, and
only then invoke `Execute` with the per-call options. -/
def commandExecToolHandler (e : CommandExecutor) (w : World)
    (command workingDir : String) (env : List (String × String)) :
    ToolResult × CommandExecutor :=
  if command = "" then (ToolResult.err "empty command provided", e)
  else if !IsCommandAllowed e command then
    (ToolResult.err ("command not allowed: " ++ command), e)
  else
    let o := Execute e w command { workingDir := workingDir, env := env }
    (ToolResult.ok o.result, o.state)

/-- A minimal world: empty filesystem, no system `PATH` hits, no home. -/
def sampleWorld : World where
  stat := fun _ => none
  lookPath := fun _ => none
  evalSymlinks := fun _ => none
  home := ""
  environ := []
  run := fun _ _ _ _ => { stdout := "", stderr := "", status := RunStatus.success }

/-- A small concrete world with `/tmp`, `/tmp/sub` directories and an
executable `/bin/ls`. -/
def tmpWorld : World where
  stat := fun p =>
    if p = "/tmp" || p = "/tmp/sub" then some { isDir := true, mode := 0o755 }
    else if p = "/bin/ls" then some { isDir := false, mode := 0o755 }
    else none
  lookPath := fun _ => none
  evalSymlinks := fun _ => none
  home := "/home/user"
  environ := ["PATH=/usr/bin"]
  run := fun _ _ _ _ => { stdout := "out", stderr := "", status := RunStatus.success }

/-- An executor whose allowlist is exactly `{"ls"}`. -/
def lsExecutor : CommandExecutor where
  allowedCommands := ["ls"]
  currentWorkingDir := "/home/user"
  allowedDirs := []
  showWorkingDir := true
  searchPaths := []
  pathBehavior := "prepend"
  globalEnvironment := []

/-- An executor guarding directories by the literal prefix `/tmp`. -/
def tmpGuardExecutor : CommandExecutor where
  allowedCommands := ["ls", "cd", "pwd"]
  currentWorkingDir := "/tmp"
  allowedDirs := ["/tmp"]
  showWorkingDir := true
  searchPaths := []
  pathBehavior := "prepend"
  globalEnvironment := []

/-- An executor with one configured search path, for resolution examples. -/
def searchExecutor : CommandExecutor where
  allowedCommands := ["ls"]
  currentWorkingDir := "/home/user"
  allowedDirs := []
  showWorkingDir := true
  searchPaths := ["/bin"]
  pathBehavior := "prepend"
  globalEnvironment := []

/-- An executor with global `PATH` configured and a nonempty search path,
exercising the `PATH` rewrite. -/
def envCexExecutor : CommandExecutor where
  allowedCommands := ["ls"]
  currentWorkingDir := "/home/user"
  allowedDirs := []
  showWorkingDir := true
  searchPaths := ["/sp"]
  pathBehavior := "prepend"
  globalEnvironment := [("PATH", "G")]

/-- An executor with `pathBehavior = "replace"` and two search paths. -/
def replaceExecutor : CommandExecutor where
  allowedCommands := ["ls"]
  currentWorkingDir := "/home/user"
  allowedDirs := []
  showWorkingDir := true
  searchPaths := ["/a", "/b"]
  pathBehavior := "replace"
  globalEnvironment := []

/-- Well-formedness of a run outcome's error text: a Go `error` value's
`Error()` string is never empty. -/
def runMsgOk : RunStatus → Prop
  | RunStatus.success => True
  | RunStatus.exitError _ msg => msg ≠ ""
  | RunStatus.otherError msg => msg ≠ ""

/-! ## Theorems -/

theorem listStartsWith_iff (as bs : List Char) :
    listStartsWith as bs = true ↔ as <+: bs := by
  induction as generalizing bs with
  | nil => simp [listStartsWith]
  | cons a as ih =>
    cases bs with
    | nil => simp [listStartsWith]
    | cons b bs =>
      simp only [listStartsWith, Bool.and_eq_true, decide_eq_true_eq, ih,
        List.cons_prefix_cons]

theorem strStartsWith_iff (s pre : String) :
    strStartsWith s pre = true ↔ pre.data <+: s.data := by
  simp [strStartsWith, listStartsWith_iff]

/-- C1: for every command string whose first whitespace-delimited token is
not an exact member of the allowlist, `IsCommandAllowed` returns `false`;
the empty string (and a command with no tokens) is rejected; matching is
exact-token, so with allowlist `{"ls"}` the command `"lsof -p 1"` is
rejected. -/
theorem isCommandAllowed_exact_token (e : CommandExecutor) (cmd : String) :
    (∀ t ts, goFields cmd = t :: ts → t ∉ e.allowedCommands →
      IsCommandAllowed e cmd = false)
    ∧ (goFields cmd = [] → IsCommandAllowed e cmd = false)
    ∧ IsCommandAllowed e "" = false
    ∧ IsCommandAllowed lsExecutor "lsof -p 1" = false := by
  refine ⟨?_, ?_, ?_, by decide⟩
  · intro t ts hf hmem
    unfold IsCommandAllowed
    rw [hf]
    have hc : e.allowedCommands.contains t = false := by
      simpa using hmem
    simp only [hc]
    split <;> rfl
  · intro hf
    unfold IsCommandAllowed
    rw [hf]
    simp
  · rfl

theorem isCommandAllowed_exact_token_witness :
    IsCommandAllowed lsExecutor "lsof -p 1" = false
    ∧ IsCommandAllowed lsExecutor "" = false :=
  ⟨(isCommandAllowed_exact_token lsExecutor "lsof -p 1").1 "lsof" ["-p", "1"]
      (by decide) (by decide),
    (isCommandAllowed_exact_token lsExecutor "").2.2.1⟩

/-- C3: `IsDirectoryAllowed` is fail-open on an empty `allowedDirs`, and
otherwise accepts exactly the paths having some configured entry as a
literal string prefix; in particular the guard configured with `/tmp`
accepts `/tmp2`. -/
theorem isDirectoryAllowed_spec (e : CommandExecutor) (path : String) :
    (e.allowedDirs = [] → IsDirectoryAllowed e path = true)
    ∧ (e.allowedDirs ≠ [] →
        (IsDirectoryAllowed e path = true ↔
          ∃ d ∈ e.allowedDirs, d.data <+: path.data))
    ∧ IsDirectoryAllowed tmpGuardExecutor "/tmp2" = true := by
  refine ⟨?_, ?_, by decide⟩
  · intro h
    simp [IsDirectoryAllowed, h]
  · intro h
    have hne : e.allowedDirs.isEmpty = false := by
      simpa [List.isEmpty_iff] using h
    simp [IsDirectoryAllowed, hne, List.any_eq_true, strStartsWith_iff]

theorem isDirectoryAllowed_spec_witness :
    IsDirectoryAllowed lsExecutor "/anything" = true
    ∧ IsDirectoryAllowed tmpGuardExecutor "/tmp2" = true :=
  ⟨(isDirectoryAllowed_spec lsExecutor "/anything").1 rfl,
    (isDirectoryAllowed_spec lsExecutor "/anything").2.2⟩

theorem envLookup_envInsert_self (m : List (String × String)) (k v : String) :
    envLookup (envInsert m k v) k = some v := by
  induction m with
  | nil => simp [envInsert, envLookup]
  | cons kv rest ih =>
    by_cases h : kv.1 = k
    · simp [envInsert, envLookup, h]
    · simp [envInsert, envLookup, h, ih]

theorem envLookup_envInsert_ne (m : List (String × String)) (k v k' : String)
    (h : k' ≠ k) :
    envLookup (envInsert m k v) k' = envLookup m k' := by
  induction m with
  | nil => simp [envInsert, envLookup, Ne.symm h]
  | cons kv rest ih =>
    by_cases hk : kv.1 = k
    · subst hk
      simp [envInsert, envLookup, Ne.symm h]
    · simp [envInsert, envLookup, hk, ih]

theorem envLookup_overlay (xs m : List (String × String)) (k : String) :
    envLookup (overlay m xs) k =
      match lookupLast xs k with
      | some v => some v
      | none => envLookup m k := by
  induction xs generalizing m with
  | nil => simp [overlay, lookupLast]
  | cons kv xs ih =>
    show envLookup (overlay (envInsert m kv.1 kv.2) xs) k = _
    rw [ih]
    cases h : lookupLast xs k with
    | some v => simp [lookupLast, h]
    | none =>
      by_cases hk : kv.1 = k
      · subst hk
        simp [lookupLast, h, envLookup_envInsert_self]
      · simp [lookupLast, h, hk, envLookup_envInsert_ne _ _ _ _ (fun he => hk he.symm)]

theorem envLookup_overlayStep (e : CommandExecutor) (inherited : List String)
    (additionalEnv : List (String × String)) (k : String) :
    envLookup (overlayStep e inherited additionalEnv) k =
      match lookupLast additionalEnv k with
      | some v => some v
      | none =>
        match lookupLast e.globalEnvironment k with
        | some v => some v
        | none => envLookup (overlay [] (inherited.filterMap parseEnvEntry)) k := by
  unfold overlayStep
  rw [envLookup_overlay]
  cases lookupLast additionalEnv k with
  | some v => rfl
  | none =>
    rw [envLookup_overlay]

theorem buildEnvMap_lookup_of_ne (e : CommandExecutor) (inherited : List String)
    (additionalEnv : List (String × String)) (k : String)
    (h : k ≠ "PATH" ∨ e.searchPaths = []) :
    envLookup (buildEnvMap e inherited additionalEnv) k =
      envLookup (overlayStep e inherited additionalEnv) k := by
  unfold buildEnvMap
  cases hsp : e.searchPaths with
  | nil => simp
  | cons d ds =>
    have hk : k ≠ "PATH" := by
      rcases h with h | h
      · exact h
      · rw [hsp] at h
        cases h
    simp only [List.isEmpty_cons]
    rw [if_neg (by simp)]
    exact envLookup_envInsert_ne _ _ _ _ hk

/-- C9 counterexample: with a nonempty `searchPaths` the search-path
variable `PATH` does **not** resolve to the per-call value even when it is
present in all three layers — the path-merge step rewrites it afterwards. -/
theorem buildEnv_precedence_cex :
    lookupLast (["PATH=I"].filterMap parseEnvEntry) "PATH" = some "I"
    ∧ lookupLast envCexExecutor.globalEnvironment "PATH" = some "G"
    ∧ lookupLast [("PATH", "P")] "PATH" = some "P"
    ∧ envLookup (buildEnvMap envCexExecutor ["PATH=I"] [("PATH", "P")]) "PATH" =
        some "/sp:P"
    ∧ ¬ envLookup (buildEnvMap envCexExecutor ["PATH=I"] [("PATH", "P")]) "PATH" =
        some "P" := by
  refine ⟨rfl, rfl, rfl, rfl, ?_⟩
  decide

/-- C9 (amended): environment precedence `inherited < global-config <
per-call` holds in the built child environment for every key other than the
search-path variable `PATH` (and for `PATH` as well when `searchPaths` is
empty; otherwise the path-merge step rewrites `PATH` afterwards): a key bound
by the per-call mapping resolves to its (last) per-call value, and a key not
bound per-call but bound by the global configuration resolves to its global
value, whatever the inherited environment holds. -/
theorem buildEnv_precedence (e : CommandExecutor) (inherited : List String)
    (additionalEnv : List (String × String)) (k : String)
    (hk : k ≠ "PATH" ∨ e.searchPaths = []) :
    (∀ v, lookupLast additionalEnv k = some v →
      envLookup (buildEnvMap e inherited additionalEnv) k = some v)
    ∧ (lookupLast additionalEnv k = none →
        ∀ v, lookupLast e.globalEnvironment k = some v →
          envLookup (buildEnvMap e inherited additionalEnv) k = some v) := by
  constructor
  · intro v hv
    rw [buildEnvMap_lookup_of_ne e inherited additionalEnv k hk,
      envLookup_overlayStep, hv]
  · intro hnone v hv
    rw [buildEnvMap_lookup_of_ne e inherited additionalEnv k hk,
      envLookup_overlayStep, hnone, hv]

theorem buildEnv_precedence_witness :
    envLookup (buildEnvMap lsExecutor ["X=I", "Y=1"] [("X", "P")]) "X" = some "P"
    ∧ envLookup (buildEnvMap envCexExecutor ["GOHOME=I"] []) "GOHOME" = some "I" :=
  ⟨(buildEnv_precedence lsExecutor ["X=I", "Y=1"] [("X", "P")] "X"
      (Or.inl (by decide))).1 "P" (by decide),
    by
      have h := (buildEnv_precedence envCexExecutor ["GOHOME=I"] [] "GOHOME"
        (Or.inl (by decide))).2 (by decide)
      decide⟩

theorem joinStrings_pair (s a b : String) :
    joinStrings s [a, b] = a ++ s ++ b := rfl

/-- C10: with `searchPaths = [A, B]` and post-overlay search-path value `C`,
policy `prepend` builds `PATH = A:B:C`, `append` builds `C:A:B`, and
`replace` builds exactly `A:B`; with empty `searchPaths` the built
environment is exactly the overlay result (no forced rewrite). -/
theorem buildEnv_pathMerge (e : CommandExecutor) (inherited : List String)
    (additionalEnv : List (String × String)) :
    (∀ A B C, e.searchPaths = [A, B] →
      envLookup (overlayStep e inherited additionalEnv) "PATH" = some C →
      (e.pathBehavior = "prepend" →
        envLookup (buildEnvMap e inherited additionalEnv) "PATH" =
          some (A ++ ":" ++ B ++ ":" ++ C))
      ∧ (e.pathBehavior = "append" →
        envLookup (buildEnvMap e inherited additionalEnv) "PATH" =
          some (C ++ ":" ++ A ++ ":" ++ B))
      ∧ (e.pathBehavior = "replace" →
        envLookup (buildEnvMap e inherited additionalEnv) "PATH" =
          some (A ++ ":" ++ B)))
    ∧ (e.searchPaths = [] →
        buildEnvMap e inherited additionalEnv = overlayStep e inherited additionalEnv) := by
  constructor
  · intro A B C hsp hC
    simp only [buildEnvMap]
    rw [hsp, hC]
    refine ⟨?_, ?_, ?_⟩ <;> intro hb <;> rw [hb] <;>
      simp [pathListSep, joinStrings_pair, envLookup_envInsert_self,
        String.append_assoc]
  · intro hsp
    simp only [buildEnvMap]
    rw [hsp]
    simp

theorem buildEnv_pathMerge_witness :
    envLookup (buildEnvMap replaceExecutor ["PATH=C"] []) "PATH" = some "/a:/b" :=
  ((buildEnv_pathMerge replaceExecutor ["PATH=C"] []).1 "/a" "/b" "C" rfl
    (by decide)).2.2 rfl

theorem searchInPaths_cons (w : World) (cmdName dir : String) (rest : List String) :
    searchInPaths w cmdName (dir :: rest) =
      if execOK w (goJoin dir cmdName) then some (goJoin dir cmdName)
      else searchInPaths w cmdName rest := by
  show (match w.stat (goJoin dir cmdName) with
    | some info =>
      if !info.isDir && isExecutable info then some (goJoin dir cmdName)
      else searchInPaths w cmdName rest
    | none => searchInPaths w cmdName rest) = _
  unfold execOK
  cases w.stat (goJoin dir cmdName) with
  | none => simp
  | some info =>
    by_cases hx : (!info.isDir && isExecutable info) = true <;> simp [hx]

theorem searchInPaths_eq_none (w : World) (cmdName : String) (ds : List String)
    (h : ∀ d ∈ ds, execOK w (goJoin d cmdName) = false) :
    searchInPaths w cmdName ds = none := by
  induction ds with
  | nil => rfl
  | cons d rest ih =>
    rw [searchInPaths_cons, if_neg]
    · exact ih fun d' hd' => h d' (List.mem_cons_of_mem d hd')
    · simp [h d (List.mem_cons_self d rest)]

theorem searchInPaths_first (w : World) (cmdName : String) (ds1 : List String)
    (d : String) (ds2 : List String)
    (h1 : ∀ d' ∈ ds1, execOK w (goJoin d' cmdName) = false)
    (h2 : execOK w (goJoin d cmdName) = true) :
    searchInPaths w cmdName (ds1 ++ d :: ds2) = some (goJoin d cmdName) := by
  induction ds1 with
  | nil => rw [List.nil_append, searchInPaths_cons, if_pos h2]
  | cons d' rest ih =>
    rw [List.cons_append, searchInPaths_cons, if_neg]
    · exact ih fun x hx => h1 x (List.mem_cons_of_mem d' hx)
    · simp [h1 d' (List.mem_cons_self d' rest)]

/-- C4: binary resolution order — an empty command errors; an absolute
program name is returned unchanged iff its stat succeeds on an executable
non-directory (NotFound / NotExecutable errors otherwise); otherwise the
configured search paths are scanned in order and the first joined entry that
exists, is not a directory and is executable wins; the system lookup is
consulted only when nothing was found and the policy is not `replace`;
otherwise resolution errors NotFound. -/
theorem resolveBinaryPath_spec (e : CommandExecutor) (w : World) (cmd : String) :
    (goFields cmd = [] → resolveBinaryPath e w cmd = Except.error "empty command")
    ∧ (∀ name rest, goFields cmd = name :: rest → isAbs name = true →
        (w.stat name = none →
          resolveBinaryPath e w cmd = Except.error ("command not found: " ++ name))
        ∧ (∀ info, w.stat name = some info →
            ((info.isDir = true ∨ isExecutable info = false) →
              resolveBinaryPath e w cmd = Except.error ("not executable: " ++ name))
            ∧ (info.isDir = false → isExecutable info = true →
              resolveBinaryPath e w cmd = Except.ok name)))
    ∧ (∀ name rest, goFields cmd = name :: rest → isAbs name = false →
        (∀ ds1 d ds2, e.searchPaths = ds1 ++ d :: ds2 →
          (∀ d' ∈ ds1, execOK w (goJoin d' name) = false) →
          execOK w (goJoin d name) = true →
          resolveBinaryPath e w cmd = Except.ok (goJoin d name))
        ∧ ((∀ d ∈ e.searchPaths, execOK w (goJoin d name) = false) →
            (e.pathBehavior ≠ "replace" →
              (∀ p, w.lookPath name = some p → resolveBinaryPath e w cmd = Except.ok p)
              ∧ (w.lookPath name = none →
                resolveBinaryPath e w cmd =
                  Except.error ("command not found: " ++ name)))
            ∧ (e.pathBehavior = "replace" →
              resolveBinaryPath e w cmd =
                Except.error ("command not found: " ++ name)))) := by
  refine ⟨?_, ?_, ?_⟩
  · intro hf
    unfold resolveBinaryPath
    rw [hf]
  · intro name rest hf habs
    constructor
    · intro hstat
      unfold resolveBinaryPath
      rw [hf]
      simp [habs, hstat]
    · intro info hstat
      constructor
      · intro hbad
        unfold resolveBinaryPath
        rw [hf]
        have : (info.isDir || !isExecutable info) = true := by
          rcases hbad with h | h <;> simp [h]
        simp [habs, hstat, this]
      · intro hdir hex
        unfold resolveBinaryPath
        rw [hf]
        simp [habs, hstat, hdir, hex]
  · intro name rest hf habs
    constructor
    · intro ds1 d ds2 hsp h1 h2
      unfold resolveBinaryPath
      rw [hf, hsp]
      simp [habs, searchInPaths_first w name ds1 d ds2 h1 h2]
    · intro hnone
      have hsearch : searchInPaths w name e.searchPaths = none :=
        searchInPaths_eq_none w name e.searchPaths hnone
      refine ⟨fun hpb => ⟨?_, ?_⟩, fun hpb => ?_⟩
      · intro p hp
        unfold resolveBinaryPath
        rw [hf]
        simp [habs, hsearch, hp, hpb]
      · intro hp
        unfold resolveBinaryPath
        rw [hf]
        simp [habs, hsearch, hp, hpb]
      · unfold resolveBinaryPath
        rw [hf]
        simp [habs, hsearch, hpb]

theorem resolveBinaryPath_spec_witness :
    resolveBinaryPath searchExecutor tmpWorld "ls -l" = Except.ok "/bin/ls" :=
  ((resolveBinaryPath_spec searchExecutor tmpWorld "ls -l").2.2 "ls" ["-l"]
    (by decide) (by decide)).1 [] "/bin" [] rfl (by simp) (by decide)

theorem executeInDirectory_allowlist (e : CommandExecutor) (w : World)
    (c wd : String) (env : List (String × String)) (l : List String) :
    executeInDirectory { e with allowedCommands := l } w c wd env =
      executeInDirectory e w c wd env := rfl

theorem executeCommand_allowlist (e : CommandExecutor) (w : World)
    (c wd : String) (env : List (String × String)) (l : List String) :
    executeCommand { e with allowedCommands := l } w c wd env =
      executeCommand e w c wd env := rfl

theorem handleChangeDirectory_allowlist (e : CommandExecutor) (w : World)
    (parts : List String) (l : List String) :
    (handleChangeDirectory { e with allowedCommands := l } w parts).result =
      (handleChangeDirectory e w parts).result
    ∧ (handleChangeDirectory { e with allowedCommands := l } w parts).err =
      (handleChangeDirectory e w parts).err := by
  unfold handleChangeDirectory
  cases parts with
  | nil =>
    by_cases hh : (w.home != "") = true <;> simp [hh]
  | cons t rest =>
    cases rest with
    | nil => by_cases hh : (w.home != "") = true <;> simp [hh]
    | cons targetDir rest2 =>
      have hda : ∀ d, IsDirectoryAllowed { e with allowedCommands := l } d =
          IsDirectoryAllowed e d := fun _ => rfl
      have hres : cdResolvedDir { e with allowedCommands := l } w targetDir =
          cdResolvedDir e w targetDir := rfl
      simp only [hda, hres]
      split <;> (try split) <;> simp

/-- C2: `Execute` never consults the allowlist — its structured result and
its error value are identical across any two executor states that differ
only in `allowedCommands` — and the allowlist is enforced only by the
caller-facing tool adapter, which returns the "command not allowed" error
without invoking `Execute` (executor state unchanged). -/
theorem execute_ignores_allowlist (e : CommandExecutor) (w : World) (cmd : String)
    (opts : Options) (l : List String) :
    ((Execute { e with allowedCommands := l } w cmd opts).result =
        (Execute e w cmd opts).result
      ∧ (Execute { e with allowedCommands := l } w cmd opts).err =
        (Execute e w cmd opts).err)
    ∧ (cmd ≠ "" → IsCommandAllowed e cmd = false →
        ∀ wd env, commandExecToolHandler e w cmd wd env =
          (ToolResult.err ("command not allowed: " ++ cmd), e)) := by
  constructor
  · unfold Execute
    cases hf : goFields cmd with
    | nil => exact ⟨rfl, rfl⟩
    | cons t rest =>
      by_cases hwd : (opts.workingDir != "") = true
      · simp [hwd, executeInDirectory_allowlist]
      · by_cases hcd : isChangeDirectoryCommand cmd = true
        · simpa [hwd, hcd] using handleChangeDirectory_allowlist e w (t :: rest) l
        · by_cases hpw : isPrintWorkingDirectoryCommand cmd = true
          · simp [hwd, hcd, hpw, handlePrintWorkingDirectory]
          · simp [hwd, hcd, hpw, executeCommand_allowlist]
  · intro hne hall wd env
    unfold commandExecToolHandler
    rw [if_neg hne]
    simp [hall]

theorem execute_ignores_allowlist_witness :
    commandExecToolHandler lsExecutor sampleWorld "pwd" "" [] =
      (ToolResult.err ("command not allowed: " ++ "pwd"), lsExecutor) :=
  (execute_ignores_allowlist lsExecutor sampleWorld "pwd" { workingDir := "", env := [] }
    []).2 (by decide) (by decide) "" []

/-- C5: a scoped call (a non-empty per-call working-directory override)
never mutates the executor state — whatever the command and however the call
ends, the post-call state equals the pre-call state — and when the override
fails the Directory Guard the call returns a non-nil error. -/
theorem scoped_call_preserves_state (e : CommandExecutor) (w : World) (cmd wd : String)
    (env : List (String × String)) (hwd : wd ≠ "") :
    (Execute e w cmd { workingDir := wd, env := env }).state = e
    ∧ (IsDirectoryAllowed e wd = false →
        (Execute e w cmd { workingDir := wd, env := env }).err.isSome = true) := by
  have hbne : (wd != "") = true := by simpa using hwd
  constructor
  · unfold Execute
    cases hf : goFields cmd with
    | nil => rfl
    | cons t rest => simp [hbne]
  · intro hdis
    unfold Execute
    cases hf : goFields cmd with
    | nil => rfl
    | cons t rest =>
      simp only [hbne, if_true, Bool.true_eq_false]
      simp only [executeInDirectory]
      cases hstat : w.stat wd with
      | none => simp
      | some st =>
        cases hdir : st.isDir with
        | false => simp [hdir]
        | true => simp [hdir, hdis]

theorem scoped_call_preserves_state_witness :
    (Execute tmpGuardExecutor tmpWorld "ls" { workingDir := "/etc", env := [] }).state =
      tmpGuardExecutor
    ∧ (Execute tmpGuardExecutor tmpWorld "ls"
        { workingDir := "/etc", env := [] }).err.isSome = true :=
  ⟨(scoped_call_preserves_state tmpGuardExecutor tmpWorld "ls" "/etc" []
      (by decide)).1,
    (scoped_call_preserves_state tmpGuardExecutor tmpWorld "ls" "/etc" []
      (by decide)).2 (by decide)⟩

/-- C6: a scoped call whose command's first token is the `cd` pseudo-command
and whose override directory exists, is a directory and passes the
Directory Guard is rejected with `ExitCode` 1, the "not supported when using
a temporary working directory" error text, a non-nil error value, and an
unchanged executor state. -/
theorem scoped_cd_rejected (e : CommandExecutor) (w : World) (cmd wd : String)
    (env : List (String × String)) (rest : List String) (info : FileInfo)
    (hwd : wd ≠ "") (hcd : goFields cmd = "cd" :: rest)
    (hstat : w.stat wd = some info) (hdir : info.isDir = true)
    (hallow : IsDirectoryAllowed e wd = true) :
    Execute e w cmd { workingDir := wd, env := env } =
      { result := { command := cmd, workingDir := wd, stdout := "", stderr := "",
                    exitCode := 1,
                    error :=
                      "cd command is not supported when using a temporary working directory" },
        state := e,
        err := some "cd command is not supported in executeInDirectory" } := by
  have hbne : (wd != "") = true := by simpa using hwd
  unfold Execute
  rw [hcd]
  simp only [hbne, if_true]
  simp only [executeInDirectory]
  rw [hcd, hstat]
  simp [hdir, hallow]

theorem scoped_cd_rejected_witness :
    Execute tmpGuardExecutor tmpWorld "cd /x" { workingDir := "/tmp", env := [] } =
      { result := { command := "cd /x", workingDir := "/tmp", stdout := "", stderr := "",
                    exitCode := 1,
                    error :=
                      "cd command is not supported when using a temporary working directory" },
        state := tmpGuardExecutor,
        err := some "cd command is not supported in executeInDirectory" } :=
  scoped_cd_rejected tmpGuardExecutor tmpWorld "cd /x" "/tmp" [] ["/x"]
    { isDir := true, mode := 0o755 } (by decide) (by decide) rfl rfl (by decide)

/-- C7: ambient directory-change. `cd` with no argument moves
`currentWorkingDir` to the platform home directory, and errors with
unchanged state and `ExitCode` 1 when home is unset. `cd arg` resolves the
argument against `currentWorkingDir` when relative, with best-effort
symlink resolution (`cdResolvedDir`); it errors without mutating state when
the resolved path does not exist, is not a directory, or fails the
Directory Guard, and otherwise commits the resolved directory to
`currentWorkingDir` and reports it in stdout. -/
theorem ambient_cd_spec (e : CommandExecutor) (w : World) (cmd : String)
    (env : List (String × String)) :
    (goFields cmd = ["cd"] →
      (w.home ≠ "" →
        Execute e w cmd { workingDir := "", env := env } =
          { result := { command := "cd", workingDir := w.home,
                        stdout := "Changed directory to " ++ w.home, stderr := "",
                        exitCode := 0, error := "" },
            state := { e with currentWorkingDir := w.home }, err := none })
      ∧ (w.home = "" →
        Execute e w cmd { workingDir := "", env := env } =
          { result := { command := "cd", workingDir := e.currentWorkingDir, stdout := "",
                        stderr := "", exitCode := 1,
                        error := "HOME environment variable not set" },
            state := e, err := some "HOME environment variable not set" }))
    ∧ (∀ arg, goFields cmd = ["cd", arg] →
        (∀ st, w.stat (cdResolvedDir e w arg) = some st → st.isDir = true →
          IsDirectoryAllowed e (cdResolvedDir e w arg) = true →
          Execute e w cmd { workingDir := "", env := env } =
            { result := { command := "cd" ++ " " ++ arg,
                          workingDir := cdResolvedDir e w arg,
                          stdout := "Changed directory to " ++ cdResolvedDir e w arg,
                          stderr := "", exitCode := 0, error := "" },
              state := { e with currentWorkingDir := cdResolvedDir e w arg },
              err := none })
        ∧ (w.stat (cdResolvedDir e w arg) = none →
          Execute e w cmd { workingDir := "", env := env } =
            { result := { command := "cd" ++ " " ++ arg,
                          workingDir := e.currentWorkingDir, stdout := "", stderr := "",
                          exitCode := 1,
                          error := "Directory does not exist: " ++ cdResolvedDir e w arg },
              state := e,
              err := some ("Directory does not exist: " ++ cdResolvedDir e w arg) })
        ∧ (∀ st, w.stat (cdResolvedDir e w arg) = some st → st.isDir = false →
          Execute e w cmd { workingDir := "", env := env } =
            { result := { command := "cd" ++ " " ++ arg,
                          workingDir := e.currentWorkingDir, stdout := "", stderr := "",
                          exitCode := 1,
                          error := "Directory does not exist: " ++ cdResolvedDir e w arg },
              state := e,
              err := some ("Directory does not exist: " ++ cdResolvedDir e w arg) })
        ∧ (∀ st, w.stat (cdResolvedDir e w arg) = some st → st.isDir = true →
          IsDirectoryAllowed e (cdResolvedDir e w arg) = false →
          Execute e w cmd { workingDir := "", env := env } =
            { result := { command := "cd" ++ " " ++ arg,
                          workingDir := e.currentWorkingDir, stdout := "", stderr := "",
                          exitCode := 1,
                          error :=
                            "Access to directory not allowed: " ++ cdResolvedDir e w arg },
              state := e,
              err := some ("Access to directory not allowed: " ++
                cdResolvedDir e w arg) })) := by
  constructor
  · intro hcd
    have hccd : isChangeDirectoryCommand cmd = true := by
      simp [isChangeDirectoryCommand, hcd]
    constructor
    · intro hh
      have hh' : (w.home != "") = true := by simpa using hh
      unfold Execute
      rw [hcd]
      simp [hccd, handleChangeDirectory, hh', joinStrings]
    · intro hh
      unfold Execute
      rw [hcd]
      simp [hccd, handleChangeDirectory, hh, joinStrings]
  · intro arg hcd
    have hccd : isChangeDirectoryCommand cmd = true := by
      simp [isChangeDirectoryCommand, hcd]
    refine ⟨?_, ?_, ?_, ?_⟩
    · intro st hstat hdir hallow
      unfold Execute
      rw [hcd]
      simp [hccd, handleChangeDirectory, hstat, hdir, hallow, joinStrings]
    · intro hstat
      unfold Execute
      rw [hcd]
      simp [hccd, handleChangeDirectory, hstat, joinStrings]
    · intro st hstat hdir
      unfold Execute
      rw [hcd]
      simp [hccd, handleChangeDirectory, hstat, hdir, joinStrings]
    · intro st hstat hdir hallow
      unfold Execute
      rw [hcd]
      simp [hccd, handleChangeDirectory, hstat, hdir, hallow, joinStrings]

theorem ambient_cd_spec_witness :
    Execute tmpGuardExecutor tmpWorld "cd sub" { workingDir := "", env := [] } =
      { result := { command := "cd" ++ " " ++ "sub", workingDir := "/tmp/sub",
                    stdout := "Changed directory to " ++ "/tmp/sub", stderr := "",
                    exitCode := 0, error := "" },
        state := { tmpGuardExecutor with currentWorkingDir := "/tmp/sub" },
        err := none } := by
  have h := ((ambient_cd_spec tmpGuardExecutor tmpWorld "cd sub" []).2 "sub"
    (by decide)).1 { isDir := true, mode := 0o755 } (by decide) rfl (by decide)
  simpa using h

theorem string_data_append (s t : String) : (s ++ t).data = s.data ++ t.data := by
  cases s
  cases t
  rfl

theorem append_ne_empty_left (s t : String) (h : s ≠ "") : s ++ t ≠ "" := by
  intro he
  apply h
  have hd := congrArg String.data he
  rw [string_data_append] at hd
  have hs : s.data = [] := (List.append_eq_nil.mp (by simpa using hd)).1
  cases s with
  | mk d =>
    simp only at hs
    subst hs
    rfl

theorem resolveBinaryPath_error_msg (e : CommandExecutor) (w : World) (cmd msg : String)
    (h : resolveBinaryPath e w cmd = Except.error msg) : msg ≠ "" := by
  unfold resolveBinaryPath at h
  cases hf : goFields cmd with
  | nil =>
    rw [hf] at h
    simp only [Except.error.injEq] at h
    subst h
    decide
  | cons name rest =>
    rw [hf] at h
    dsimp only at h
    by_cases habs : isAbs name = true
    · rw [if_pos habs] at h
      cases hstat : w.stat name with
      | none =>
        rw [hstat] at h
        simp only [Except.error.injEq] at h
        subst h
        exact append_ne_empty_left _ _ (by decide)
      | some info =>
        rw [hstat] at h
        dsimp only at h
        by_cases hbad : (info.isDir || !isExecutable info) = true
        · rw [if_pos hbad] at h
          simp only [Except.error.injEq] at h
          subst h
          exact append_ne_empty_left _ _ (by decide)
        · rw [if_neg hbad] at h
          simp at h
    · rw [if_neg habs] at h
      cases hs : searchInPaths w name e.searchPaths with
      | some p =>
        rw [hs] at h
        simp at h
      | none =>
        rw [hs] at h
        dsimp only at h
        by_cases hpb : (e.pathBehavior != "replace") = true
        · rw [if_pos hpb] at h
          cases hlp : w.lookPath name with
          | some p =>
            rw [hlp] at h
            simp at h
          | none =>
            rw [hlp] at h
            dsimp only at h
            simp only [Except.error.injEq] at h
            subst h
            exact append_ne_empty_left _ _ (by decide)
        · rw [if_neg hpb] at h
          simp only [Except.error.injEq] at h
          subst h
          exact append_ne_empty_left _ _ (by decide)

theorem executeCommand_error_iff (e : CommandExecutor) (w : World) (cmd wd : String)
    (env : List (String × String))
    (hw : ∀ b a d ev, runMsgOk (w.run b a d ev).status) :
    ((executeCommand e w cmd wd env).1.error = "" ↔
      (executeCommand e w cmd wd env).2 = none)
    ∧ ((executeCommand e w cmd wd env).2 = none →
        (executeCommand e w cmd wd env).1.exitCode = 0) := by
  unfold executeCommand
  cases hf : goFields cmd with
  | nil => simp
  | cons t rest =>
    cases hres : resolveBinaryPath e w cmd with
    | error msg =>
      have hmsg := resolveBinaryPath_error_msg e w cmd msg hres
      simp [hmsg]
    | ok bp =>
      have hrun := hw bp rest wd (buildEnvironment e w env)
      cases hst : (w.run bp rest wd (buildEnvironment e w env)).status with
      | success => simp [hst]
      | exitError code m =>
        rw [hst] at hrun
        simp only [runMsgOk] at hrun
        simp [hst, hrun]
      | otherError m =>
        rw [hst] at hrun
        simp only [runMsgOk] at hrun
        simp [hst, hrun]

theorem executeInDirectory_error_iff (e : CommandExecutor) (w : World) (cmd wd : String)
    (env : List (String × String))
    (hw : ∀ b a d ev, runMsgOk (w.run b a d ev).status) :
    ((executeInDirectory e w cmd wd env).1.error = "" ↔
      (executeInDirectory e w cmd wd env).2 = none)
    ∧ ((executeInDirectory e w cmd wd env).2 = none →
        (executeInDirectory e w cmd wd env).1.exitCode = 0) := by
  unfold executeInDirectory
  cases hstat : w.stat wd with
  | none => simp [append_ne_empty_left "Directory does not exist: " wd (by decide)]
  | some st =>
    cases hdir : st.isDir with
    | false =>
      simp [hdir, append_ne_empty_left "Directory does not exist: " wd (by decide)]
    | true =>
      by_cases hall : IsDirectoryAllowed e wd = true
      · simp only [hdir, hall, Bool.true_eq_false, Bool.not_true, if_false,
          Bool.false_eq_true, Bool.not_false, if_true]
        split
        · simp
        · simp
        · exact executeCommand_error_iff e w cmd wd env hw
      · have hall' : IsDirectoryAllowed e wd = false := by
          simpa using hall
        simp [hdir, hall',
          append_ne_empty_left "Access to directory not allowed: " wd (by decide)]

theorem handleChangeDirectory_error_iff (e : CommandExecutor) (w : World)
    (parts : List String) :
    ((handleChangeDirectory e w parts).result.error = "" ↔
      (handleChangeDirectory e w parts).err = none)
    ∧ ((handleChangeDirectory e w parts).err = none →
        (handleChangeDirectory e w parts).result.exitCode = 0) := by
  unfold handleChangeDirectory
  cases parts with
  | nil =>
    by_cases hh : (w.home != "") = true <;> simp [hh]
  | cons t rest =>
    cases rest with
    | nil => by_cases hh : (w.home != "") = true <;> simp [hh]
    | cons targetDir rest2 =>
      cases hstat : w.stat (cdResolvedDir e w targetDir) with
      | none =>
        simp [hstat, append_ne_empty_left "Directory does not exist: "
          (cdResolvedDir e w targetDir) (by decide)]
      | some st =>
        cases hdir : st.isDir with
        | false =>
          simp [hstat, hdir, append_ne_empty_left "Directory does not exist: "
            (cdResolvedDir e w targetDir) (by decide)]
        | true =>
          by_cases hall : IsDirectoryAllowed e (cdResolvedDir e w targetDir) = true
          · simp [hstat, hdir, hall]
          · have hall' : IsDirectoryAllowed e (cdResolvedDir e w targetDir) = false := by
              simpa using hall
            simp [hstat, hdir, hall',
              append_ne_empty_left "Access to directory not allowed: "
                (cdResolvedDir e w targetDir) (by decide)]

/-- C8: the structured result's `error` field is empty iff the Go error
value is `nil` — every failure (validation, resolution, spawn, non-zero
exit) sets both, and pseudo-command successes and zero-exit runs set
neither — and a `nil` error value implies `ExitCode` 0. Requires the
well-formedness assumption that process-run error strings are non-empty
(true of every Go `error`). -/
theorem error_iff_failure (e : CommandExecutor) (w : World) (cmd : String)
    (opts : Options)
    (hw : ∀ b a d ev, runMsgOk (w.run b a d ev).status) :
    ((Execute e w cmd opts).result.error = "" ↔ (Execute e w cmd opts).err = none)
    ∧ ((Execute e w cmd opts).err = none →
        (Execute e w cmd opts).result.exitCode = 0) := by
  unfold Execute
  cases hf : goFields cmd with
  | nil => simp
  | cons t rest =>
    by_cases hwd : (opts.workingDir != "") = true
    · simpa [hwd] using executeInDirectory_error_iff e w cmd opts.workingDir opts.env hw
    · by_cases hcd : isChangeDirectoryCommand cmd = true
      · simpa [hwd, hcd] using handleChangeDirectory_error_iff e w (t :: rest)
      · by_cases hpw : isPrintWorkingDirectoryCommand cmd = true
        · simp [hwd, hcd, hpw, handlePrintWorkingDirectory]
        · simpa [hwd, hcd, hpw] using
            executeCommand_error_iff e w cmd e.currentWorkingDir opts.env hw

theorem error_iff_failure_witness :
    ((Execute tmpGuardExecutor tmpWorld "pwd"
        { workingDir := "", env := [] }).result.error = ""
      ↔ (Execute tmpGuardExecutor tmpWorld "pwd"
          { workingDir := "", env := [] }).err = none)
    ∧ ((Execute tmpGuardExecutor tmpWorld "pwd"
          { workingDir := "", env := [] }).err = none →
        (Execute tmpGuardExecutor tmpWorld "pwd"
          { workingDir := "", env := [] }).result.exitCode = 0) :=
  error_iff_failure tmpGuardExecutor tmpWorld "pwd" { workingDir := "", env := [] }
    (fun _ _ _ _ => trivial)

end CmdExec
